import Mathlib

/-!
Shallow embedding of the `rolling-rate-limiter` library (TypeScript).

Sources embedded here:
* `src/index.ts` (current version): `RateLimiter` (constructor validation,
  `calculateInfo`, `limitWithInfo`, `wouldLimitWithInfo`, `limit`, `wouldLimit`),
  `InMemoryRateLimiter` (`getTimestamps`, `clear`), `BaseRedisRateLimiter`
  (`getTimestamps`, `clear`), and the time-unit conversion helpers.
* the repository variant of `index.ts` in which `limit`/`limitWithInfo` take a
  `count` parameter (default 1) and `getTimestamps` takes a number
  `addNewTimestamps` of new timestamps to append, valued `now, now+1, ...`.
  The current version's boolean `addNewTimestamp` corresponds exactly to
  `addNewTimestamps ∈ {0, 1}` here, so one definition covers both.

Modelling conventions:
* JS numbers holding microsecond timestamps and durations become `Int`
  (subtraction in `calculateInfo` can go negative under clock skew).
* `getCurrentMicroseconds()` becomes an explicit `now : Int` parameter.
* Backend state becomes an explicit record threaded through the operations.
* A JS array access that can yield `undefined` becomes an `Option` access;
  `calculateInfo` therefore returns `Option RateLimitInfo`, with `none`
  exactly when some access the JS code performs would be `undefined`.
* `setTimeout`-based in-memory expiry is modelled by storing the scheduled
  expiry deadline (`now` plus the `setTimeout` delay); Redis `EXPIRE` is
  modelled by storing the deadline `now` plus the TTL in seconds.
-/

namespace RollingRateLimiter

/-- Identifier under which action history is tracked (`Id = number | string`
in the source; modelled as `Nat`). -/
def Id := Nat

instance : DecidableEq Id := inferInstanceAs (DecidableEq Nat)

instance : OfNat Id 0 := ⟨(0 : Nat)⟩
instance : OfNat Id 1 := ⟨(1 : Nat)⟩

/-- Source `millisecondsToMicroseconds`: multiply by 1000. -/
def millisecondsToMicroseconds (milliseconds : Int) : Int :=
  1000 * milliseconds

/-- Source `microsecondsToMilliseconds`: `Math.ceil(microseconds / 1000)`.
Ceiling division `⌈a / 1000⌉` expressed with floor division on the negation. -/
def microsecondsToMilliseconds (microseconds : Int) : Int :=
  -(Int.ediv (-microseconds) 1000)

/-- Source `microsecondsToSeconds`: `Math.ceil(microseconds / 1000 / 1000)`. -/
def microsecondsToSeconds (microseconds : Int) : Int :=
  -(Int.ediv (-microseconds) 1000000)

/-- Configuration held by a constructed `RateLimiter`: `interval` and
`minDifference` are stored in microseconds, as in the source constructor. -/
structure RateLimiter where
  interval : Int
  maxInInterval : Int
  minDifference : Int
  deriving Repr, DecidableEq

/-- Source `RateLimiter` constructor. Takes `interval` and `maxInInterval`
in milliseconds plus an optional `minDifference` (default 0), asserts
`interval > 0`, `maxInInterval > 0`, `minDifference >= 0`, and converts the
durations to microseconds. A failed `assert` (a thrown `ConfigurationError`)
is modelled as `none`. -/
def RateLimiter.construct (interval maxInInterval : Int)
    (minDifferenceOpt : Option Int) : Option RateLimiter :=
  let minDifference := minDifferenceOpt.getD 0
  if 0 < interval ∧ 0 < maxInInterval ∧ 0 ≤ minDifference then
    some { interval := millisecondsToMicroseconds interval
           maxInInterval := maxInInterval
           minDifference := millisecondsToMicroseconds minDifference }
  else
    none

/-- Result shape returned by `limitWithInfo` and `wouldLimitWithInfo`. -/
structure RateLimitInfo where
  blocked : Bool
  blockedDueToCount : Bool
  blockedDueToMinDifference : Bool
  millisecondsUntilAllowed : Int
  actionsRemaining : Int
  deriving Repr, DecidableEq

/-- Source `RateLimiter.calculateInfo`. The last item of `timestamps` is the
timestamp of the current action. Returns `none` exactly when a JS array
access performed by the source would be `undefined` (empty input list, or an
out-of-range window index); `previousTimestamp` may be absent without
failure, matching the `previousTimestamp != null` guard. -/
def RateLimiter.calculateInfo (rl : RateLimiter) (timestamps : List Int) :
    Option RateLimitInfo :=
  let numTimestamps := timestamps.length
  match timestamps[numTimestamps - 1]? with
  | none => none
  | some currentTimestamp =>
    let previousTimestampOpt : Option Int :=
      if 2 ≤ numTimestamps then timestamps[numTimestamps - 2]? else none
    let blockedDueToCount : Bool := decide ((numTimestamps : Int) > rl.maxInInterval)
    let blockedDueToMinDifference : Bool :=
      match previousTimestampOpt with
      | none => false
      | some previousTimestamp =>
        decide (rl.minDifference > 0 ∧
          currentTimestamp - previousTimestamp < rl.minDifference)
    let blocked := blockedDueToCount || blockedDueToMinDifference
    let windowIndex := (max 0 ((numTimestamps : Int) - rl.maxInInterval)).toNat
    let microsecondsUntilUnblockedOpt : Option Int :=
      if (numTimestamps : Int) ≥ rl.maxInInterval then
        (timestamps[windowIndex]?).map
          (fun t => t - currentTimestamp + rl.interval)
      else
        some 0
    match microsecondsUntilUnblockedOpt with
    | none => none
    | some microsecondsUntilUnblocked =>
      some { blocked := blocked
             blockedDueToCount := blockedDueToCount
             blockedDueToMinDifference := blockedDueToMinDifference
             millisecondsUntilAllowed :=
               microsecondsToMilliseconds
                 (max rl.minDifference microsecondsUntilUnblocked)
             actionsRemaining := max 0 (rl.maxInInterval - numTimestamps) }

/-- Pointwise update of a total map keyed by identifiers. -/
def updateMap {α : Type} (f : Id → α) (id : Id) (v : α) : Id → α :=
  fun j => if j = id then v else f j

/-- State of an `InMemoryRateLimiter`: `storage` maps an identifier to its
stored timestamp array (`none` when the key is absent), `ttls` to the
scheduled expiry deadline of its pending `setTimeout` (`none` when no timer
is pending). -/
structure InMemoryState where
  storage : Id → Option (List Int)
  ttls : Id → Option Int

/-- Fresh in-memory state: `storage = {}`, `ttls = {}`. -/
def InMemoryState.empty : InMemoryState :=
  { storage := fun _ => none, ttls := fun _ => none }

/-- Source `InMemoryRateLimiter.getTimestamps`, executed at clock reading
`now`. Filters the stored timestamps to those strictly newer than
`now - interval`, appends `addNewTimestamps` new timestamps valued
`now, now+1, ...` (each append also rescheduling the expiry timer), persists
the updated list, and returns it. The current source version's boolean
`addNewTimestamp` is `addNewTimestamps ∈ {0, 1}`. -/
def RateLimiter.inMemoryGetTimestamps (rl : RateLimiter) (s : InMemoryState)
    (id : Id) (addNewTimestamps : Nat) (now : Int) :
    InMemoryState × List Int :=
  let clearBefore := now - rl.interval
  let storedTimestamps :=
    ((s.storage id).getD []).filter (fun t => decide (t > clearBefore))
  let updated :=
    storedTimestamps ++ (List.range addNewTimestamps).map (fun (i : Nat) => now + (i : Int))
  let ttls :=
    if addNewTimestamps = 0 then s.ttls
    else
      updateMap s.ttls id
        (some (now + millisecondsToMicroseconds
          (microsecondsToMilliseconds rl.interval)))
  ({ storage := updateMap s.storage id (some updated), ttls := ttls }, updated)

/-- Source `InMemoryRateLimiter.clear`: deletes the stored array and cancels
any pending expiry timer. -/
def RateLimiter.inMemoryClear (s : InMemoryState) (id : Id) : InMemoryState :=
  { storage := updateMap s.storage id none, ttls := updateMap s.ttls id none }

/-- Source `RateLimiter.limitWithInfo` on the in-memory backend: reads (and
atomically updates) the timestamps with `count` new entries, then computes
the verdict. The source defaults `count` to 1; the current source version
always passes `count = 1`. -/
def RateLimiter.inMemoryLimitWithInfo (rl : RateLimiter) (s : InMemoryState)
    (id : Id) (count : Nat) (now : Int) :
    InMemoryState × Option RateLimitInfo :=
  let r := rl.inMemoryGetTimestamps s id count now
  (r.1, rl.calculateInfo r.2)

/-- Source `RateLimiter.wouldLimitWithInfo` on the in-memory backend: reads
the timestamps without adding any (`count = 0`), appends a synthetic current
timestamp locally, and computes the verdict on that list. -/
def RateLimiter.inMemoryWouldLimitWithInfo (rl : RateLimiter)
    (s : InMemoryState) (id : Id) (now : Int) :
    InMemoryState × Option RateLimitInfo :=
  let r := rl.inMemoryGetTimestamps s id 0 now
  (r.1, rl.calculateInfo (r.2 ++ [now]))

/-- Source `RateLimiter.limit` on the in-memory backend: `limitWithInfo`
projected to its `blocked` field. -/
def RateLimiter.inMemoryLimit (rl : RateLimiter) (s : InMemoryState)
    (id : Id) (count : Nat) (now : Int) : InMemoryState × Option Bool :=
  let r := rl.inMemoryLimitWithInfo s id count now
  (r.1, r.2.map RateLimitInfo.blocked)

/-- Source `RateLimiter.wouldLimit` on the in-memory backend:
`wouldLimitWithInfo` projected to its `blocked` field. -/
def RateLimiter.inMemoryWouldLimit (rl : RateLimiter) (s : InMemoryState)
    (id : Id) (now : Int) : InMemoryState × Option Bool :=
  let r := rl.inMemoryWouldLimitWithInfo s id now
  (r.1, r.2.map RateLimitInfo.blocked)

/-- State of a Redis-backed limiter for one namespace: `sets` maps an
identifier's key to the scores of its sorted-set members (kept in score
order; member strings are fresh UUIDs and carry no information), `expiry`
to the key's scheduled expiry deadline. -/
structure RedisState where
  sets : Id → List Int
  expiry : Id → Option Int

/-- Fresh Redis state: no keys stored. -/
def RedisState.empty : RedisState :=
  { sets := fun _ => [], expiry := fun _ => none }

/-- Source `BaseRedisRateLimiter.getTimestamps`, executed at clock reading
`now`, as one atomic `MULTI` batch: `ZREMRANGEBYSCORE key 0 clearBefore`
(removes exactly the members with score in `[0, now - interval]`), then
`addNewTimestamps` times `ZADD key (now+i) uuid()` (modelled as insertion
into the score-ordered list after existing equal scores), then
`ZRANGE key 0 -1 WITHSCORES` (the returned scores), then
`EXPIRE key ttl` with `ttl = microsecondsToSeconds interval`, executed
unconditionally. -/
def RateLimiter.redisGetTimestamps (rl : RateLimiter) (s : RedisState)
    (id : Id) (addNewTimestamps : Nat) (now : Int) : RedisState × List Int :=
  let clearBefore := now - rl.interval
  let afterRemove :=
    (s.sets id).filter (fun t => decide (¬(0 ≤ t ∧ t ≤ clearBefore)))
  let afterAdd :=
    (List.range addNewTimestamps).foldl
      (fun l (i : Nat) => List.orderedInsert (fun a b => a < b) (now + (i : Int)) l) afterRemove
  let deadline := now + 1000000 * microsecondsToSeconds rl.interval
  ({ sets := updateMap s.sets id afterAdd
     expiry := updateMap s.expiry id (some deadline) }, afterAdd)

/-- Source `BaseRedisRateLimiter.clear`: `DEL key`. -/
def RateLimiter.redisClear (s : RedisState) (id : Id) : RedisState :=
  { sets := updateMap s.sets id [], expiry := updateMap s.expiry id none }

/-- Source `RateLimiter.wouldLimitWithInfo` on the Redis backend. -/
def RateLimiter.redisWouldLimitWithInfo (rl : RateLimiter) (s : RedisState)
    (id : Id) (now : Int) : RedisState × Option RateLimitInfo :=
  let r := rl.redisGetTimestamps s id 0 now
  (r.1, rl.calculateInfo (r.2 ++ [now]))

/-- Source `RateLimiter.limitWithInfo` on the Redis backend. -/
def RateLimiter.redisLimitWithInfo (rl : RateLimiter) (s : RedisState)
    (id : Id) (count : Nat) (now : Int) : RedisState × Option RateLimitInfo :=
  let r := rl.redisGetTimestamps s id count now
  (r.1, rl.calculateInfo r.2)

/-- Normal form of a successful `calculateInfo` run: every field expressed
by a closed formula over the input list, under the preconditions that at
least one timestamp is present and that `maxInInterval` is at least one
(guaranteed by the constructor). -/
theorem RateLimiter.calculateInfo_eq_some (rl : RateLimiter) (ts : List Int)
    (hn : 1 ≤ ts.length) (hm : 1 ≤ rl.maxInInterval) :
    rl.calculateInfo ts =
      some { blocked :=
               decide ((ts.length : Int) > rl.maxInInterval) ||
               decide (2 ≤ ts.length ∧ 0 < rl.minDifference ∧
                 ts.getD (ts.length - 1) 0 - ts.getD (ts.length - 2) 0 <
                   rl.minDifference)
             blockedDueToCount := decide ((ts.length : Int) > rl.maxInInterval)
             blockedDueToMinDifference :=
               decide (2 ≤ ts.length ∧ 0 < rl.minDifference ∧
                 ts.getD (ts.length - 1) 0 - ts.getD (ts.length - 2) 0 <
                   rl.minDifference)
             millisecondsUntilAllowed :=
               microsecondsToMilliseconds (max rl.minDifference
                 (if (ts.length : Int) ≥ rl.maxInInterval then
                   ts.getD (ts.length - rl.maxInInterval.toNat) 0 -
                     ts.getD (ts.length - 1) 0 + rl.interval
                  else 0))
             actionsRemaining := max 0 (rl.maxInInterval - ts.length) } := by
  have hb1 : ts.length - 1 < ts.length := by omega
  have hcur : ts[ts.length - 1]? = some (ts.getD (ts.length - 1) 0) := by
    rw [List.getElem?_eq_getElem hb1, List.getD_eq_getElem?_getD,
      List.getElem?_eq_getElem hb1]
    rfl
  simp only [RateLimiter.calculateInfo]
  rw [hcur]
  dsimp only
  have hwin :
      (if (ts.length : Int) ≥ rl.maxInInterval then
        (ts[(max 0 ((ts.length : Int) - rl.maxInInterval)).toNat]?).map
          (fun t => t - ts.getD (ts.length - 1) 0 + rl.interval)
       else some 0) =
      some (if (ts.length : Int) ≥ rl.maxInInterval then
        ts.getD (ts.length - rl.maxInInterval.toNat) 0 -
          ts.getD (ts.length - 1) 0 + rl.interval
       else 0) := by
    by_cases hw : (ts.length : Int) ≥ rl.maxInInterval
    · rw [if_pos hw, if_pos hw]
      have hidx : (max 0 ((ts.length : Int) - rl.maxInInterval)).toNat =
          ts.length - rl.maxInInterval.toNat := by omega
      have hbnd : ts.length - rl.maxInInterval.toNat < ts.length := by omega
      rw [hidx]
      simp [List.getD_eq_getElem?_getD, List.getElem?_eq_getElem hbnd,
        List.getElem?_eq_getElem hb1]
    · rw [if_neg hw, if_neg hw]
  by_cases h2 : 2 ≤ ts.length
  · have hb2 : ts.length - 2 < ts.length := by omega
    have hprev : ts[ts.length - 2]? = some (ts.getD (ts.length - 2) 0) := by
      rw [List.getElem?_eq_getElem hb2, List.getD_eq_getElem?_getD,
        List.getElem?_eq_getElem hb2]
      rfl
    rw [if_pos h2, hprev]
    dsimp only
    rw [hwin]
    dsimp only
    have hdec : decide (rl.minDifference > 0 ∧
        ts.getD (ts.length - 1) 0 - ts.getD (ts.length - 2) 0 <
          rl.minDifference) =
        decide (2 ≤ ts.length ∧ 0 < rl.minDifference ∧
          ts.getD (ts.length - 1) 0 - ts.getD (ts.length - 2) 0 <
            rl.minDifference) := by
      rw [decide_eq_decide]
      constructor
      · intro h
        exact ⟨h2, h.1, h.2⟩
      · intro h
        exact ⟨h.2.1, h.2.2⟩
    rw [hdec]
  · rw [if_neg h2]
    dsimp only
    rw [hwin]
    dsimp only
    have hdec : (false : Bool) =
        decide (2 ≤ ts.length ∧ 0 < rl.minDifference ∧
          ts.getD (ts.length - 1) 0 - ts.getD (ts.length - 2) 0 <
            rl.minDifference) := by
      symm
      rw [decide_eq_false_iff_not]
      intro h
      exact h2 h.1
    rw [hdec]



/-- Evaluating the decision engine on an empty list fails (the JS code would
read `undefined` as the current timestamp). -/
theorem RateLimiter.calculateInfo_nil (rl : RateLimiter) :
    rl.calculateInfo [] = none := rfl

/-- Updating a map twice at the same key keeps only the second write. -/
theorem updateMap_updateMap {α : Type} (f : Id → α) (id : Id) (v w : α) :
    updateMap (updateMap f id v) id w = updateMap f id w := by
  funext j
  unfold updateMap
  by_cases h : j = id <;> simp [h]

/-- Reading an updated map at the updated key yields the written value. -/
theorem updateMap_self {α : Type} (f : Id → α) (id : Id) (v : α) :
    updateMap f id v id = v := by
  simp [updateMap]

/-- Filtering with a stronger keep-predicate absorbs an earlier filtering
with a weaker one. -/
theorem filter_absorb {p q : Int → Bool}
    (h : ∀ t, p t = true → q t = true) (l : List Int) :
    (l.filter q).filter p = l.filter p := by
  induction l with
  | nil => rfl
  | cons a l ih =>
    by_cases hq : q a = true
    · rw [List.filter_cons, if_pos hq, List.filter_cons, List.filter_cons, ih]
    · have hp : ¬p a = true := fun hp => hq (h a hp)
      rw [List.filter_cons, if_neg hq, List.filter_cons, if_neg hp, ih]

/-- Eviction at a later clock reading subsumes eviction at an earlier one
(in-memory keep-predicate `t > clearBefore`). -/
theorem filter_newer_absorb (cb cb' : Int) (h : cb ≤ cb') (l : List Int) :
    ((l.filter (fun t => decide (t > cb))).filter
        (fun t => decide (t > cb'))) =
      l.filter (fun t => decide (t > cb')) := by
  apply filter_absorb
  intro t ht
  rw [decide_eq_true_eq] at ht ⊢
  omega

/-- Eviction at a later clock reading subsumes eviction at an earlier one
(Redis keep-predicate: score outside `[0, clearBefore]`). -/
theorem filter_score_absorb (cb cb' : Int) (h : cb ≤ cb') (l : List Int) :
    ((l.filter (fun t => decide (¬(0 ≤ t ∧ t ≤ cb)))).filter
        (fun t => decide (¬(0 ≤ t ∧ t ≤ cb')))) =
      l.filter (fun t => decide (¬(0 ≤ t ∧ t ≤ cb'))) := by
  apply filter_absorb
  intro t ht
  rw [decide_eq_true_eq] at ht ⊢
  omega

/-- C1: for every ordered timestamp list with the current attempt last
(length at least 1) and every valid configuration (`maxInInterval ≥ 1`),
the verdict flags satisfy: `blockedDueToCount` iff `n > maxInInterval`;
`blockedDueToMinDifference` iff a previous element exists, `minDifference`
is positive, and `current - previous < minDifference`; `blocked` iff either
flag holds. -/
theorem c1_decision_flags (rl : RateLimiter) (ts : List Int)
    (info : RateLimitInfo) (hn : 1 ≤ ts.length) (hm : 1 ≤ rl.maxInInterval)
    (h : rl.calculateInfo ts = some info) :
    (info.blockedDueToCount = true ↔ (ts.length : Int) > rl.maxInInterval) ∧
    (info.blockedDueToMinDifference = true ↔
      (2 ≤ ts.length ∧ 0 < rl.minDifference ∧
        ts.getD (ts.length - 1) 0 - ts.getD (ts.length - 2) 0 <
          rl.minDifference)) ∧
    (info.blocked = true ↔
      (info.blockedDueToCount = true ∨
        info.blockedDueToMinDifference = true)) := by
  rw [rl.calculateInfo_eq_some ts hn hm] at h
  injection h with h
  subst h
  refine ⟨by simp, by simp, ?_⟩
  simp [Bool.or_eq_true]

/-- Witness for C1 at a concrete input: a single first action under
`maxInInterval = 2` sets no flag. -/
theorem c1_decision_flags_witness :
    ((⟨false, false, false, 0, 1⟩ : RateLimitInfo).blocked = true ↔
      ((⟨false, false, false, 0, 1⟩ : RateLimitInfo).blockedDueToCount = true ∨
        (⟨false, false, false, 0, 1⟩ : RateLimitInfo).blockedDueToMinDifference
          = true)) := by
  have h := c1_decision_flags ⟨10000, 2, 0⟩ [0] ⟨false, false, false, 0, 1⟩
    (by decide) (by decide) (by decide)
  exact h.2.2

/-- C2: for every non-empty timestamp list and valid configuration, the
informational fields are `millisecondsUntilAllowed = ceil-to-ms of
max(minDifference, timestamps[n - maxInInterval] + interval - current)` when
`n ≥ maxInInterval` (`0` in place of the deadline otherwise) and
`actionsRemaining = max(0, maxInInterval - n)`. -/
theorem c2_info_fields (rl : RateLimiter) (ts : List Int)
    (info : RateLimitInfo) (hn : 1 ≤ ts.length) (hm : 1 ≤ rl.maxInInterval)
    (h : rl.calculateInfo ts = some info) :
    info.millisecondsUntilAllowed =
      microsecondsToMilliseconds (max rl.minDifference
        (if (ts.length : Int) ≥ rl.maxInInterval then
          ts.getD (ts.length - rl.maxInInterval.toNat) 0 + rl.interval -
            ts.getD (ts.length - 1) 0
         else 0)) ∧
    info.actionsRemaining = max 0 (rl.maxInInterval - ts.length) := by
  rw [rl.calculateInfo_eq_some ts hn hm] at h
  injection h with h
  subst h
  refine ⟨?_, rfl⟩
  dsimp only
  congr 1
  congr 1
  by_cases hw : (ts.length : Int) ≥ rl.maxInInterval
  · rw [if_pos hw, if_pos hw]
    ring
  · rw [if_neg hw, if_neg hw]

/-- Witness for C2 at a concrete input: the spec scenario `interval = 10`,
`maxInInterval = 3`, `minDifference = 2` at the first action. -/
theorem c2_info_fields_witness :
    (⟨false, false, false, 2, 2⟩ : RateLimitInfo).millisecondsUntilAllowed =
      microsecondsToMilliseconds (max (2000 : Int)
        (if ((([(0 : Int)] : List Int).length : Int) ≥ (3 : Int)) then
          ([(0 : Int)] : List Int).getD
              (([(0 : Int)] : List Int).length - (3 : Int).toNat) 0 + 10000 -
            ([(0 : Int)] : List Int).getD
              (([(0 : Int)] : List Int).length - 1) 0
         else 0)) := by
  have h := c2_info_fields ⟨10000, 3, 2000⟩ [0] ⟨false, false, false, 2, 2⟩
    (by decide) (by decide) (by decide)
  exact h.1

/-- C10: for every non-empty timestamp list and configuration with
`maxInInterval ≥ 1`, the verdict computation is total (`calculateInfo`
returns a value), the last-element and window indices are in bounds, and on
a singleton list the min-difference flag is `false` rather than an error. -/
theorem c10_total_and_safe (rl : RateLimiter) (ts : List Int)
    (hn : 1 ≤ ts.length) (hm : 1 ≤ rl.maxInInterval) :
    ((rl.calculateInfo ts).isSome = true) ∧
    (ts.length - 1 < ts.length) ∧
    ((ts.length : Int) ≥ rl.maxInInterval →
      (max 0 ((ts.length : Int) - rl.maxInInterval)).toNat < ts.length) ∧
    (ts.length = 1 → ∀ info, rl.calculateInfo ts = some info →
      info.blockedDueToMinDifference = false) := by
  refine ⟨?_, by omega, by omega, ?_⟩
  · rw [rl.calculateInfo_eq_some ts hn hm]
    rfl
  · intro h1 info h
    rw [rl.calculateInfo_eq_some ts hn hm] at h
    injection h with h
    subst h
    dsimp only
    rw [decide_eq_false_iff_not]
    intro hc
    omega

/-- Witness for C10 at a concrete input: a singleton list under
`maxInInterval = 2`. -/
theorem c10_total_and_safe_witness :
    (((⟨10000, 2, 2000⟩ : RateLimiter).calculateInfo [5]).isSome = true) ∧
    (∀ info, (⟨10000, 2, 2000⟩ : RateLimiter).calculateInfo [5] = some info →
      info.blockedDueToMinDifference = false) := by
  have h := c10_total_and_safe ⟨10000, 2, 2000⟩ [5] (by decide) (by decide)
  exact ⟨h.1, h.2.2.2 (by decide)⟩


/-- C7: construction fails exactly when `interval ≤ 0`, `maxInInterval ≤ 0`,
or `minDifference < 0`; an omitted `minDifference` defaults to `0`, in which
case construction succeeds (for positive `interval` and `maxInInterval`)
with the min-difference check disabled: no verdict ever sets
`blockedDueToMinDifference`. The check is a synchronous construction-time
test; the constructed value supports every later operation. -/
theorem c7_construction_validation (interval maxInInterval : Int)
    (minDifferenceOpt : Option Int) :
    (RateLimiter.construct interval maxInInterval minDifferenceOpt = none ↔
      interval ≤ 0 ∨ maxInInterval ≤ 0 ∨ minDifferenceOpt.getD 0 < 0) ∧
    (minDifferenceOpt = none →
      ∀ rl, RateLimiter.construct interval maxInInterval minDifferenceOpt =
          some rl →
        rl.minDifference = 0 ∧
        ∀ ts info, rl.calculateInfo ts = some info →
          info.blockedDueToMinDifference = false) := by
  constructor
  · unfold RateLimiter.construct
    by_cases h : 0 < interval ∧ 0 < maxInInterval ∧
        0 ≤ minDifferenceOpt.getD 0
    · rw [if_pos h]
      simp only [reduceCtorEq, false_iff]
      omega
    · rw [if_neg h]
      simp only [true_iff]
      omega
  · intro hnone rl hsome
    subst hnone
    unfold RateLimiter.construct at hsome
    by_cases h : 0 < interval ∧ 0 < maxInInterval ∧
        0 ≤ (none : Option Int).getD 0
    · rw [if_pos h] at hsome
      injection hsome with hsome
      subst hsome
      refine ⟨rfl, ?_⟩
      intro ts info hinfo
      rcases Nat.eq_zero_or_pos ts.length with h0 | h1
      · rw [List.length_eq_zero] at h0
        subst h0
        rw [RateLimiter.calculateInfo_nil] at hinfo
        exact absurd hinfo (by simp)
      · rw [RateLimiter.calculateInfo_eq_some _ ts h1 (by exact h.2.1)] at hinfo
        injection hinfo with hinfo
        subst hinfo
        dsimp only
        rw [decide_eq_false_iff_not]
        intro hc
        have : (0 : Int) < millisecondsToMicroseconds ((none : Option Int).getD 0) :=
          hc.2.1
        simp [millisecondsToMicroseconds] at this
    · rw [if_neg h] at hsome
      exact absurd hsome (by simp)

/-- Witness for C7 at a concrete input: `interval = 10`, `maxInInterval = 2`,
`minDifference` omitted. -/
theorem c7_construction_validation_witness :
    (RateLimiter.construct 10 2 none = none ↔
      (10 : Int) ≤ 0 ∨ (2 : Int) ≤ 0 ∨ (none : Option Int).getD 0 < 0) ∧
    ((⟨10000, 2, 0⟩ : RateLimiter).minDifference = 0) := by
  have h := c7_construction_validation 10 2 none
  refine ⟨h.1, ?_⟩
  exact (h.2 rfl ⟨10000, 2, 0⟩ (by decide)).1

/-- C4: a `limitWithInfo` call writes the current attempt's timestamps into
the stored history within the same backend step as the read — the resulting
state is exactly the state `getTimestamps` produces, before and independent
of the verdict — and for `count ≥ 1` the stored history contains the new
timestamp `now` afterwards, whatever the verdict was. -/
theorem c4_blocked_attempt_still_counts (rl : RateLimiter)
    (s : InMemoryState) (id : Id) (count : Nat) (now : Int) :
    ((rl.inMemoryLimitWithInfo s id count now).1 =
      (rl.inMemoryGetTimestamps s id count now).1) ∧
    ((rl.inMemoryLimitWithInfo s id count now).1.storage id =
      some ((((s.storage id).getD []).filter
          (fun t => decide (t > now - rl.interval))) ++
        (List.range count).map (fun (i : Nat) => now + (i : Int)))) ∧
    (1 ≤ count →
      now ∈ (((rl.inMemoryLimitWithInfo s id count now).1.storage id).getD []))
    ∧
    (∀ sr : RedisState,
      now ∈ ((rl.redisLimitWithInfo sr id 1 now).1.sets id)) := by
  have hstore : (rl.inMemoryLimitWithInfo s id count now).1.storage id =
      some ((((s.storage id).getD []).filter
          (fun t => decide (t > now - rl.interval))) ++
        (List.range count).map (fun (i : Nat) => now + (i : Int))) := by
    simp [RateLimiter.inMemoryLimitWithInfo, RateLimiter.inMemoryGetTimestamps,
      updateMap]
  refine ⟨rfl, hstore, ?_, ?_⟩
  · intro hcount
    rw [hstore, Option.getD_some, List.mem_append]
    right
    rw [List.mem_map]
    refine ⟨0, ?_, by simp⟩
    rw [List.mem_range]
    omega
  · intro sr
    have h1 : (rl.redisLimitWithInfo sr id 1 now).1.sets id =
        (List.range 1).foldl
          (fun l (i : Nat) =>
            List.orderedInsert (fun a b => a < b) (now + (i : Int)) l)
          ((sr.sets id).filter
            (fun t => decide (¬(0 ≤ t ∧ t ≤ now - rl.interval)))) :=
      updateMap_self _ _ _
    have hr : (List.range 1).foldl
        (fun l (i : Nat) =>
          List.orderedInsert (fun a b => a < b) (now + (i : Int)) l)
        ((sr.sets id).filter
          (fun t => decide (¬(0 ≤ t ∧ t ≤ now - rl.interval)))) =
        List.orderedInsert (fun a b => a < b) (now + ((0 : Nat) : Int))
          ((sr.sets id).filter
            (fun t => decide (¬(0 ≤ t ∧ t ≤ now - rl.interval)))) := rfl
    rw [h1, hr, List.mem_orderedInsert]
    left
    simp

/-- Witness for C4 at a concrete input: one action at `now = 0` on an empty
store lands in the stored history. -/
theorem c4_blocked_attempt_still_counts_witness :
    (0 : Int) ∈
      ((((⟨10000, 2, 0⟩ : RateLimiter).inMemoryLimitWithInfo
        InMemoryState.empty 0 1 0).1.storage 0).getD []) := by
  have h := c4_blocked_attempt_still_counts ⟨10000, 2, 0⟩
    InMemoryState.empty 0 1 0
  exact h.2.2.1 (by decide)

/-- C5: `limit` passes its `count` (default 1 in the source) unchanged to
`limitWithInfo` and thus to the backend `getTimestamps`, which appends
exactly `count` new timestamps valued `now, now + 1, ..., now + count - 1`
to the retained history, regardless of the verdict. -/
theorem c5_count_parameter (rl : RateLimiter) (s : InMemoryState) (id : Id)
    (count : Nat) (now : Int) :
    (rl.inMemoryLimit s id count now =
      ((rl.inMemoryLimitWithInfo s id count now).1,
        ((rl.inMemoryLimitWithInfo s id count now).2).map
          RateLimitInfo.blocked)) ∧
    ((rl.inMemoryGetTimestamps s id count now).2 =
      (((s.storage id).getD []).filter
          (fun t => decide (t > now - rl.interval))) ++
        (List.range count).map (fun (i : Nat) => now + (i : Int))) ∧
    ((rl.inMemoryGetTimestamps s id count now).2.length =
      (((s.storage id).getD []).filter
          (fun t => decide (t > now - rl.interval))).length + count) := by
  refine ⟨rfl, rfl, ?_⟩
  show ((((s.storage id).getD []).filter
      (fun t => decide (t > now - rl.interval))) ++
    (List.range count).map (fun (i : Nat) => now + (i : Int))).length = _
  rw [List.length_append, List.length_map, List.length_range]


/-- C3 counterexample: `wouldLimitWithInfo` does change the in-memory stored
state. With `interval = 10` ms, a stored timestamp `0` for identifier `0`,
and a call at `now = 20000` µs, the stored history for that identifier goes
from `[0]` to `[]` (the eviction is persisted; the entry is rewritten). -/
theorem c3_counterexample :
    ((⟨10000, 1, 0⟩ : RateLimiter).inMemoryWouldLimitWithInfo
        ⟨fun j => if j = 0 then some [0] else none, fun _ => none⟩
        0 20000).1.storage 0 ≠
      (⟨fun j => if j = 0 then some [0] else none,
        fun _ => none⟩ : InMemoryState).storage 0 := by
  decide

/-- C3 (amended): `wouldLimit`/`wouldLimitWithInfo` never write the
synthetic "now" timestamp — every timestamp stored after the call was
already stored before — and the in-memory TTL is untouched; the stored
entry may be rewritten with expired timestamps evicted (and the Redis
backend additionally refreshes the key's TTL), but a subsequent
`getTimestamps` call at any later clock reading returns exactly the state
and timestamp list it would have produced had the `wouldLimit` call not
happened. -/
theorem c3_amended_would_limit_effect (rl : RateLimiter) (s : InMemoryState)
    (sr : RedisState) (id : Id) (now nowLater : Int) (count : Nat)
    (h : now ≤ nowLater) :
    ((rl.inMemoryWouldLimitWithInfo s id now).1.ttls = s.ttls) ∧
    (∀ t, t ∈ (((rl.inMemoryWouldLimitWithInfo s id now).1.storage id).getD [])
      → t ∈ ((s.storage id).getD [])) ∧
    (rl.inMemoryGetTimestamps ((rl.inMemoryWouldLimitWithInfo s id now).1)
        id count nowLater =
      rl.inMemoryGetTimestamps s id count nowLater) ∧
    (∀ t, t ∈ ((rl.redisWouldLimitWithInfo sr id now).1.sets id) →
      t ∈ (sr.sets id)) ∧
    ((rl.redisWouldLimitWithInfo sr id now).1.expiry id =
      some (now + 1000000 * microsecondsToSeconds rl.interval)) ∧
    (rl.redisGetTimestamps ((rl.redisWouldLimitWithInfo sr id now).1)
        id count nowLater =
      rl.redisGetTimestamps sr id count nowLater) := by
  refine ⟨rfl, ?_, ?_, ?_, ?_, ?_⟩
  · intro t ht
    simp only [RateLimiter.inMemoryWouldLimitWithInfo,
      RateLimiter.inMemoryGetTimestamps, updateMap, List.range_zero,
      List.map_nil, List.append_nil, if_true, Option.getD_some] at ht
    exact (List.mem_filter.mp ht).1
  · have hbase :
        (((rl.inMemoryWouldLimitWithInfo s id now).1.storage id).getD []) =
          ((s.storage id).getD []).filter
            (fun t => decide (t > now - rl.interval)) := by
      simp only [RateLimiter.inMemoryWouldLimitWithInfo,
        RateLimiter.inMemoryGetTimestamps, updateMap, List.range_zero,
        List.map_nil, List.append_nil, if_true, Option.getD_some]
    simp only [RateLimiter.inMemoryGetTimestamps, hbase,
      filter_newer_absorb (now - rl.interval) (nowLater - rl.interval)
        (by omega)]
    simp only [RateLimiter.inMemoryWouldLimitWithInfo,
      RateLimiter.inMemoryGetTimestamps, List.range_zero, List.map_nil,
      List.append_nil, updateMap_updateMap, if_true]
  · intro t ht
    simp only [RateLimiter.redisWouldLimitWithInfo,
      RateLimiter.redisGetTimestamps, updateMap, List.range_zero,
      List.foldl_nil, if_true] at ht
    exact (List.mem_filter.mp ht).1
  · simp [RateLimiter.redisWouldLimitWithInfo,
      RateLimiter.redisGetTimestamps, updateMap]
  · have hbase : ((rl.redisWouldLimitWithInfo sr id now).1.sets id) =
        (sr.sets id).filter
          (fun t => decide (¬(0 ≤ t ∧ t ≤ now - rl.interval))) := by
      simp only [RateLimiter.redisWouldLimitWithInfo,
        RateLimiter.redisGetTimestamps, updateMap, List.range_zero,
        List.foldl_nil, if_true]
    simp only [RateLimiter.redisGetTimestamps, hbase,
      filter_score_absorb (now - rl.interval) (nowLater - rl.interval)
        (by omega)]
    simp only [RateLimiter.redisWouldLimitWithInfo,
      RateLimiter.redisGetTimestamps, List.range_zero, List.foldl_nil,
      updateMap_updateMap]

/-- Witness for C3 (amended) at a concrete input: stored `[0]`, a
`wouldLimitWithInfo` call at `now = 20000`, then a call at `nowLater =
20000`. -/
theorem c3_amended_would_limit_effect_witness :
    (((⟨10000, 1, 0⟩ : RateLimiter).inMemoryWouldLimitWithInfo
        ⟨fun j => if j = 0 then some [0] else none, fun _ => none⟩
        0 20000).1.ttls =
      (⟨fun j => if j = 0 then some [0] else none,
        fun _ => none⟩ : InMemoryState).ttls) ∧
    ((⟨10000, 1, 0⟩ : RateLimiter).inMemoryGetTimestamps
        (((⟨10000, 1, 0⟩ : RateLimiter).inMemoryWouldLimitWithInfo
          ⟨fun j => if j = 0 then some [0] else none, fun _ => none⟩
          0 20000).1) 0 1 20000 =
      (⟨10000, 1, 0⟩ : RateLimiter).inMemoryGetTimestamps
        ⟨fun j => if j = 0 then some [0] else none, fun _ => none⟩
        0 1 20000) := by
  have hfull := c3_amended_would_limit_effect ⟨10000, 1, 0⟩
    ⟨fun j => if j = 0 then some [0] else none, fun _ => none⟩
    RedisState.empty 0 20000 20000 1 (by omega)
  exact ⟨hfull.1, hfull.2.2.1⟩

/-- C6 counterexample: a timestamp exactly `interval` old is evicted even
though it is not older than `now - interval`. With `interval = 10` ms, a
stored timestamp `0`, and a call at `now = 10000` µs, the boundary
timestamp `0 = now - interval` satisfies the claim's retention condition
yet is dropped from the returned (and persisted) list. -/
theorem c6_counterexample :
    ((0 : Int) ∈
      (((⟨fun j => if j = 0 then some [0] else none,
        fun _ => none⟩ : InMemoryState).storage 0).getD [])) ∧
    (10000 - (⟨10000, 1, 0⟩ : RateLimiter).interval ≤ (0 : Int)) ∧
    ((0 : Int) ∉
      ((⟨10000, 1, 0⟩ : RateLimiter).inMemoryGetTimestamps
        ⟨fun j => if j = 0 then some [0] else none, fun _ => none⟩
        0 0 10000).2) := by
  decide

/-- C6 (amended): a `getTimestamps` call executed at time `now` retains a
stored timestamp `t` iff `t` is strictly newer than `now - interval`; it
evicts exactly the stored timestamps with `t ≤ now - interval` (for the
distributed backend: exactly the entries with score in `[0, now -
interval]`), in both the persisted state and the returned list. -/
theorem c6_amended_eviction_boundary (rl : RateLimiter) (s : InMemoryState)
    (sr : RedisState) (id : Id) (now t : Int) :
    ((rl.inMemoryGetTimestamps s id 0 now).2 =
      ((s.storage id).getD []).filter
        (fun u => decide (u > now - rl.interval))) ∧
    (t ∈ (rl.inMemoryGetTimestamps s id 0 now).2 ↔
      t ∈ ((s.storage id).getD []) ∧ now - rl.interval < t) ∧
    ((rl.inMemoryGetTimestamps s id 0 now).1.storage id =
      some ((rl.inMemoryGetTimestamps s id 0 now).2)) ∧
    ((rl.redisGetTimestamps sr id 0 now).2 =
      (sr.sets id).filter
        (fun u => decide (¬(0 ≤ u ∧ u ≤ now - rl.interval)))) ∧
    (t ∈ (rl.redisGetTimestamps sr id 0 now).2 ↔
      t ∈ (sr.sets id) ∧ ¬(0 ≤ t ∧ t ≤ now - rl.interval)) ∧
    ((rl.redisGetTimestamps sr id 0 now).1.sets id =
      (rl.redisGetTimestamps sr id 0 now).2) := by
  have hmem : (rl.inMemoryGetTimestamps s id 0 now).2 =
      ((s.storage id).getD []).filter
        (fun u => decide (u > now - rl.interval)) := by
    simp [RateLimiter.inMemoryGetTimestamps]
  have hredis : (rl.redisGetTimestamps sr id 0 now).2 =
      (sr.sets id).filter
        (fun u => decide (¬(0 ≤ u ∧ u ≤ now - rl.interval))) := rfl
  refine ⟨hmem, ?_, ?_, hredis, ?_, ?_⟩
  · rw [hmem, List.mem_filter]
    simp
  · simp [RateLimiter.inMemoryGetTimestamps, updateMap]
  · rw [hredis, List.mem_filter, decide_eq_true_eq]
  · simp [RateLimiter.redisGetTimestamps, updateMap]


/-- C8: the spec scenario `interval = 10` ms, `maxInInterval = 2`, no
`minDifference`, one identifier starting empty: `limit` at t = 0 ms and
t = 1 ms return `false`, `wouldLimit` at t = 9 ms returns `true`, and
`wouldLimit` at t = 10 ms returns `false` (the first action has aged out of
the window). Times are microseconds in the model. -/
theorem c8_concrete_scenario :
    (RateLimiter.construct 10 2 none = some ⟨10000, 2, 0⟩) ∧
    (let rl : RateLimiter := ⟨10000, 2, 0⟩
     let step1 := rl.inMemoryLimit InMemoryState.empty 0 1 0
     let step2 := rl.inMemoryLimit step1.1 0 1 1000
     let step3 := rl.inMemoryWouldLimit step2.1 0 9000
     let step4 := rl.inMemoryWouldLimit step3.1 0 10000
     step1.2 = some false ∧ step2.2 = some false ∧
       step3.2 = some true ∧ step4.2 = some false) := by
  constructor
  · decide
  · decide

/-- C9: provided the clock is nondecreasing across calls (every stored
timestamp is bounded by the current reading `now`), an in-memory
`getTimestamps` call adding at most one timestamp (as the current source
version does) returns a chronologically nondecreasing list whose elements
all lie within `[now - interval, now]`, persists exactly that list, and
`clear` restores the trivially ordered empty history. -/
theorem c9_chronological_window_invariant (rl : RateLimiter)
    (s : InMemoryState) (id : Id) (count : Nat) (now bound : Int)
    (hcount : count ≤ 1) (hint : 0 ≤ rl.interval)
    (hsorted : ((s.storage id).getD []).Sorted (fun a b => a ≤ b))
    (hbound : ∀ t ∈ ((s.storage id).getD []), t ≤ bound)
    (hclock : bound ≤ now) :
    ((rl.inMemoryGetTimestamps s id count now).2.Sorted
      (fun a b => a ≤ b)) ∧
    (∀ t ∈ (rl.inMemoryGetTimestamps s id count now).2,
      now - rl.interval ≤ t ∧ t ≤ now) ∧
    ((rl.inMemoryGetTimestamps s id count now).1.storage id =
      some ((rl.inMemoryGetTimestamps s id count now).2)) ∧
    ((((RateLimiter.inMemoryClear s id).storage id).getD []) = []) := by
  have hres : (rl.inMemoryGetTimestamps s id count now).2 =
      ((s.storage id).getD []).filter
          (fun t => decide (t > now - rl.interval)) ++
        (List.range count).map (fun (i : Nat) => now + (i : Int)) := rfl
  have hfiltmem : ∀ t ∈ ((s.storage id).getD []).filter
      (fun t => decide (t > now - rl.interval)),
      now - rl.interval ≤ t ∧ t ≤ now := by
    intro t ht
    rcases List.mem_filter.mp ht with ⟨hmem, hkeep⟩
    rw [decide_eq_true_eq] at hkeep
    exact ⟨by omega, le_trans (hbound t hmem) hclock⟩
  have hmap1 : (List.range 1).map (fun (i : Nat) => now + (i : Int)) =
      [now] := by
    simp [List.range_succ]
  refine ⟨?_, ?_, ?_, ?_⟩
  · rw [hres]
    rcases Nat.le_one_iff_eq_zero_or_eq_one.mp hcount with rfl | rfl
    · simpa using hsorted.filter _
    · rw [hmap1]
      refine List.pairwise_append.mpr ⟨hsorted.filter _, ?_, ?_⟩
      · simp
      · intro x hx y hy
        rw [List.mem_singleton] at hy
        subst hy
        exact (hfiltmem x hx).2
  · intro t ht
    rw [hres, List.mem_append] at ht
    rcases ht with ht | ht
    · exact hfiltmem t ht
    · rcases Nat.le_one_iff_eq_zero_or_eq_one.mp hcount with rfl | rfl
      · simp at ht
      · rw [hmap1, List.mem_singleton] at ht
        subst ht
        exact ⟨by omega, le_refl _⟩
  · simp [RateLimiter.inMemoryGetTimestamps, updateMap]
  · simp [RateLimiter.inMemoryClear, updateMap]

/-- Witness for C9 at a concrete input: stored history `[5]` (bounded by
`5`), one new timestamp at `now = 7`, `interval = 10000`. -/
theorem c9_chronological_window_invariant_witness :
    (((⟨10000, 2, 0⟩ : RateLimiter).inMemoryGetTimestamps
        ⟨fun j => if j = 0 then some [5] else none, fun _ => none⟩
        0 1 7).2.Sorted (fun a b => a ≤ b)) ∧
    (∀ t ∈ ((⟨10000, 2, 0⟩ : RateLimiter).inMemoryGetTimestamps
        ⟨fun j => if j = 0 then some [5] else none, fun _ => none⟩
        0 1 7).2, 7 - (⟨10000, 2, 0⟩ : RateLimiter).interval ≤ t ∧ t ≤ 7) := by
  have h := c9_chronological_window_invariant ⟨10000, 2, 0⟩
    ⟨fun j => if j = 0 then some [5] else none, fun _ => none⟩
    0 1 7 5 (by omega) (by decide)
    (by decide) (by decide) (by omega)
  exact ⟨h.1, h.2.1⟩

end RollingRateLimiter
